import Mathlib

/-!
# DuckGPT: the command-driven conversation loop

A shallow embedding of the conversation loop of `cmd/root.go` (`rootCmd.RunE`) and of the
older entry point `main.go` (`main`).

Go strings are modelled as lists of characters (`Str`); every string operation the loop
uses on them (`strings.TrimRight` with an ASCII cutset, `strings.HasPrefix`,
`strings.Index` with a one-character needle, `strings.TrimPrefix`, `strings.TrimSpace`)
acts on a valid UTF-8 string character by character.

The three collaborators of the loop, the chat-completion service, the `duckdb`
subprocess and the human on standard input, are an explicit `World` of oracles,
indexed by the loop counter `i`; the loop threads a `State` made of the transcript
(`messages`) and of a trace of the calls made to the collaborators.  Terminal output
(`color.Green`, the `debug` echo of the last message) is not part of the model; errors
are modelled by their messages.
-/

namespace DuckGPT

/-- A Go `string`. -/
abbrev Str := List Char

/-! ## The `strings` functions used by the loop -/

namespace strings

/-- `strings.TrimRight(s, cutset)`: drop every trailing character that is in `cutset`. -/
def TrimRight (s cutset : Str) : Str :=
  s.rdropWhile (fun c => cutset.contains c)

/-- `strings.HasPrefix(s, prefix)`:
`len(s) >= len(prefix) && s[:len(prefix)] == prefix`. -/
def HasPrefix (s pre : Str) : Bool :=
  decide (pre.length ≤ s.length) && (s.take pre.length == pre)

/-- `strings.Index(s, string(c))` for a one-character needle: the position of the first
`c` in `s`, or `-1`. -/
def Index (s : Str) (c : Char) : Int :=
  if c ∈ s then (s.indexOf c : Int) else -1

/-- `strings.TrimPrefix(s, prefix)`: `s[len(prefix):]` when `s` has the prefix, else `s`. -/
def TrimPrefix (s pre : Str) : Str :=
  if HasPrefix s pre then s.drop pre.length else s

/-- `unicode.IsSpace`: the Unicode White_Space property. -/
def IsSpace (c : Char) : Bool :=
  let r := c.toNat
  (0x09 ≤ r && r ≤ 0x0d) || r == 0x20 || r == 0x85 || r == 0xa0 || r == 0x1680 ||
  (0x2000 ≤ r && r ≤ 0x200a) || r == 0x2028 || r == 0x2029 || r == 0x202f ||
  r == 0x205f || r == 0x3000

/-- `strings.TrimSpace(s)`: `s` without its leading and trailing white space. -/
def TrimSpace (s : Str) : Str :=
  (s.dropWhile IsSpace).rdropWhile IsSpace

end strings

/-! ## The command switch -/

/-- The three arms of the `switch` on the assistant reply, with what each arm extracts
from the reply. -/
inductive Command where
  | Schema (tableName : Str)
  | Query (sql : Str)
  | Invalid (rawText : Str)
  deriving DecidableEq, Repr

/-- The `switch` of the loop body on `body`, the reply after `strings.TrimRight(body, ".;")`
(`cmd/root.go` lines 110-115, 138-140, 169-170; `main.go` lines 96-101, 124-126, 152-153,
the same text): which arm is taken, and the string that arm computes. -/
def parseCommand (body : Str) : Command :=
  if strings.HasPrefix body "SCHEMA ".toList then
    let index := strings.Index body '\n'
    let body := if index ≠ -1 then body.take index.toNat else body
    Command.Schema (strings.TrimPrefix body "SCHEMA ".toList)
  else if strings.HasPrefix body "QUERY ".toList then
    Command.Query (strings.TrimPrefix body "QUERY ".toList)
  else
    Command.Invalid body

/-- The command of an assistant reply `content`: `body = strings.TrimRight(content, ".;")`
followed by the `switch`. -/
def replyCommand (content : Str) : Command :=
  parseCommand (strings.TrimRight content ".;".toList)

/-! ## Messages, collaborators and state -/

/-- The fields of `openai.ChatCompletionMessage` the loop reads and writes. -/
structure Message where
  Role : Str
  Content : Str
  deriving DecidableEq, Repr

/-- One element of `fields`, the anonymous struct with the JSON tags `column_name` and
`column_type`. -/
structure Field where
  ColumnName : Str
  ColumnType : Str
  deriving DecidableEq, Repr

/-- What `inputReader.ReadString('\n')` returns: the data read, with `err == nil`
(`line`, the data then ends with the delimiter), `err == io.EOF` (`eof`) or another
error, given by its message (`failed`). -/
inductive ReadResult where
  | line (data : Str)
  | eof (data : Str)
  | failed (data : Str) (err : Str)
  deriving DecidableEq, Repr

/-- What a `cmd.Run()` of a subprocess leaves behind: its error (`none` is `nil`) and
what the process wrote to its standard output and standard error. -/
structure RunResult where
  err : Option Str
  stdout : Str
  stderr : Str
  deriving DecidableEq, Repr

/-- The collaborators of the session.  `CreateChatCompletion i messages` is the reply to
the request of iteration `i` (an error, or `res.Choices`); `Run i args` is the run of
`exec.Command(args[0], args[1:]...)` in iteration `i`; `ReadString i` is the read at the
checkpoint of iteration `i`, and `ReadQuery` the read of the question.  `Unmarshal` and
`Marshal` are `json.Unmarshal` into `fields` and `json.Marshal(fields)`; a Go slice is an
`Option (List Field)`, `none` being the `nil` slice. -/
structure World where
  ReadQuery : ReadResult
  Glob : Str → Except Str (List Str)
  Getenv : Str → Str
  CreateChatCompletion : Nat → List Message → Except Str (List Message)
  Run : Nat → List Str → RunResult
  Unmarshal : Str → Except Str (Option (List Field))
  Marshal : Option (List Field) → Except Str Str
  ReadString : Nat → ReadResult

/-- A call made to a collaborator. -/
inductive Event where
  | completion (messages : List Message)
  | exec (args : List Str)
  | read
  deriving DecidableEq, Repr

/-- The mutable state of a session: the transcript `messages`, and the calls made so
far. -/
structure State where
  messages : List Message
  trace : List Event
  deriving DecidableEq, Repr

/-- How a session leaves the loop: `return err` (`none` is `nil`), or the run-time panic
of `res.Choices[0]` on an empty `Choices`. -/
inductive Exit where
  | ret (err : Option Str)
  | panic
  deriving DecidableEq, Repr

/-- The effect of one execution of the loop body: it reaches the end of the body or a
`continue` (`next`), or it leaves the function (`exit`). -/
inductive Step where
  | next (s : State)
  | exit (e : Exit) (s : State)
  deriving DecidableEq, Repr

/-- The end of a session. -/
structure Final where
  exit : Exit
  state : State
  deriving DecidableEq, Repr

/-- Number of chat completions requested in a trace. -/
def completions (t : List Event) : Nat :=
  t.countP (fun e => match e with | Event.completion _ => true | _ => false)

/-- Number of subprocess runs in a trace. -/
def execs (t : List Event) : Nat :=
  t.countP (fun e => match e with | Event.exec _ => true | _ => false)

/-- Number of reads of standard input in a trace. -/
def reads (t : List Event) : Nat :=
  t.countP (fun e => match e with | Event.read => true | _ => false)

/-- `strings.Join(elems, sep)`. -/
def strings.Join : List Str → Str → Str
  | [], _ => []
  | [a], _ => a
  | a :: b :: rest, sep => a ++ sep ++ strings.Join (b :: rest) sep

/-! ## `cmd/root.go` -/

/-- `assistantInstructions` of `cmd/root.go`. -/
def assistantInstructions : Str :=
  ("You can respond with \"SCHEMA <table_name>\" to show the schema of a table. " ++
   "You can respond with \"QUERY <query>\" to execute the provided query and finish the exchange. " ++
   "Only respond with those predefined commands. " ++
   "Read the schema of any tables you want to use first. " ++
   "Always include the file extension in the table names, so table.json or table.csv, " ++
   "and then always alias the table with a custom name. " ++
   "Only send one command per message.").toList

/-- The content of the system message, before `"\n" + assistantInstructions`. -/
def systemPrompt : Str :=
  ("You are a system that parses natural language data processing queries and constructs " ++
   "a SQL query to answer the question. You can only use pre-specified commands. " ++
   "You may not use natural language in your responses.").toList

/-- The `fmt.Sprintf` of the first user message, with its three `%s` operands. -/
def userPrompt (query tables instructions : Str) : Str :=
  "User question: ".toList ++ query ++
  ("\n\nRespond with \"SCHEMA <table_name>\" to show the schema of a table. " ++
   "Respond with \"QUERY <query>\" to execute the provided query and finish the exchange. " ++
   "The user will respond to these commands.\n\n" ++
   "Example commands:\n" ++
   "\"SCHEMA hello.json\"\n" ++
   "\"SCHEMA papayas.csv\"\n" ++
   "\"QUERY SELECT SUM(i) FROM numbers.json as numbers GROUP BY true\"\n" ++
   "\"QUERY SELECT papaya_trees.region, AVG(papayas.size) FROM papaya_trees.json as papaya_trees " ++
   "JOIN papayas.csv as papayas ON papaya_tree_id = papaya_trees.id GROUP BY papaya_trees.region\"\n\n" ++
   "Never guess the schema of a table. Always ask for it. Only use the above commands, " ++
   "never respond with natural language. Do not end your commands with a period. " ++
   "You can use json and csv files.\n\n" ++
   "Never respond with natural language.\n\n" ++
   "Available tables: ").toList ++ tables ++ "\n\n".toList ++ instructions

/-- The error of the `return` after the loop. -/
def messageLimitReached : Str := "message limit reached".toList

/-- One execution of the body of `for i := 0; i < messageLimit; i++` (lines 90-171). -/
def iteration (w : World) (i : Nat) (s : State) : Step :=
  let s : State := { s with trace := s.trace ++ [Event.completion s.messages] }
  match w.CreateChatCompletion i s.messages with
  | Except.error err =>
    Step.exit (Exit.ret (some ("could not create chat completion: ".toList ++ err))) s
  | Except.ok [] => Step.exit Exit.panic s
  | Except.ok (msg :: _) =>
    let s : State := { s with messages := s.messages ++ [msg] }
    let body := msg.Content
    let body := strings.TrimRight body ".;".toList
    match parseCommand body with
    | Command.Schema tableName =>
      let args := ["duckdb".toList, "-json".toList, "-c".toList,
        "DESCRIBE SELECT * FROM ".toList ++ tableName]
      let s : State := { s with trace := s.trace ++ [Event.exec args] }
      let r := w.Run i args
      match r.err with
      | some err =>
        Step.exit (Exit.ret (some ("could not run duckdb to describe table: ".toList ++ err))) s
      | none =>
        match w.Unmarshal r.stdout with
        | Except.error err =>
          Step.exit (Exit.ret
            (some ("could not unmarshal duckdb describe output: ".toList ++ err))) s
        | Except.ok fields =>
          match w.Marshal fields with
          | Except.error err =>
            Step.exit (Exit.ret
              (some ("could not marshal duckdb describe output: ".toList ++ err))) s
          | Except.ok modifiedOutput =>
            Step.next { s with messages := s.messages ++
              [{ Role := "user".toList,
                 Content := modifiedOutput ++ "\n".toList ++ assistantInstructions }] }
    | Command.Query query =>
      let args := ["duckdb".toList, "-c".toList, query]
      let s : State := { s with trace := s.trace ++ [Event.exec args] }
      let r := w.Run i args
      match r.err with
      | some _ =>
        Step.next { s with messages := s.messages ++
          [{ Role := "user".toList,
             Content := r.stderr ++ "\n".toList ++ "Please retry.".toList ++ "\n".toList ++
               assistantInstructions }] }
      | none =>
        let s : State := { s with trace := s.trace ++ [Event.read] }
        match w.ReadString i with
        | ReadResult.eof _ => Step.exit (Exit.ret none) s
        | ReadResult.failed _ err =>
          Step.exit (Exit.ret (some ("could not read input: ".toList ++ err))) s
        | ReadResult.line line =>
          let line := strings.TrimSpace line
          if line = "exit".toList then Step.exit (Exit.ret none) s
          else
            Step.next { s with messages := s.messages ++
              [{ Role := "user".toList,
                 Content := "Please retry with this additional constraint: ".toList ++ line ++
                   "\n".toList ++ assistantInstructions ++ "\n".toList ++
                   "Do not apologize.".toList }] }
    | Command.Invalid body =>
      Step.exit (Exit.ret (some ("invalid assistant command: ".toList ++ body))) s

/-- The `for` loop with `remaining` iterations left, that is with
`remaining = messageLimit - i` when `i < messageLimit` and `remaining = 0` otherwise,
followed by the `return` of line 174. -/
def loop (w : World) : (remaining : Nat) → (i : Nat) → State → Final
  | 0, _, s => { exit := Exit.ret (some messageLimitReached), state := s }
  | remaining + 1, i, s =>
    match iteration w i s with
    | Step.next s' => loop w remaining (i + 1) s'
    | Step.exit e s' => { exit := e, state := s' }

/-- The part of `RunE` before the loop (lines 34-88): the system message, the read of the
question, the listing of the tables, the first user message and the check of the token.
`Step.next s` is the arrival at the loop in state `s`. -/
def setup (w : World) : Step :=
  let messages : List Message :=
    [{ Role := "system".toList, Content := systemPrompt ++ "\n".toList ++ assistantInstructions }]
  let s : State := { messages := messages, trace := [Event.read] }
  match w.ReadQuery with
  | ReadResult.eof _ =>
    Step.exit (Exit.ret (some ("could not read query: ".toList ++ "EOF".toList))) s
  | ReadResult.failed _ err =>
    Step.exit (Exit.ret (some ("could not read query: ".toList ++ err))) s
  | ReadResult.line query =>
    let query := strings.TrimSpace query
    match w.Glob "*.json".toList with
    | Except.error err =>
      Step.exit (Exit.ret (some ("could not list json files: ".toList ++ err))) s
    | Except.ok jsonFiles =>
      match w.Glob "*.csv".toList with
      | Except.error err =>
        Step.exit (Exit.ret (some ("could not list csv files: ".toList ++ err))) s
      | Except.ok csvFiles =>
        let s : State := { s with messages := s.messages ++
          [{ Role := "user".toList,
             Content := userPrompt query (strings.Join (jsonFiles ++ csvFiles) ", ".toList)
               assistantInstructions }] }
        if w.Getenv "GPTSQL_TOKEN".toList = [] then
          Step.exit (Exit.ret (some ("please provide your OpenAI platform token in the " ++
              "GPTSQL_TOKEN environment variable").toList)) s
        else
          Step.next s

/-- The function `RunE` of `rootCmd` (lines 33-175), for a value `messageLimit` of the
flag `--message-limit`: the set-up, then the loop from `i = 0`. -/
def RunE (w : World) (messageLimit : Int) : Final :=
  match setup w with
  | Step.exit e s => { exit := e, state := s }
  | Step.next s => loop w messageLimit.toNat 0 s

/-- The state in which iteration `i + k` starts, when the loop is at iteration `i` in
state `s` and each of the `k` iterations from there reaches the end of the body; `none`
when one of them leaves the function. -/
def stateAt (w : World) : (k : Nat) → (i : Nat) → State → Option State
  | 0, _, s => some s
  | k + 1, i, s =>
    match iteration w i s with
    | Step.next s' => stateAt w k (i + 1) s'
    | Step.exit _ _ => none

/-- The state an execution of the loop body ends in. -/
def Step.state : Step → State
  | Step.next s => s
  | Step.exit _ s => s

/-- The default of the flag `--message-limit` (`init`, line 187). -/
def defaultMessageLimit : Int := 16

/-! ## `main.go` -/

namespace Main

/-- `assistantInstructions` of `main.go`. -/
def assistantInstructions : Str :=
  ("You can respond with \"SCHEMA <table_name>\" to show the schema of a table. " ++
   "You can respond with \"QUERY <query>\" to execute the provided query and finish the exchange. " ++
   "Only respond with those predefined commands. " ++
   "Read the schema of any tables you want to use first. " ++
   "Always include the file extension in the table names, so table.json or table.csv, " ++
   "and then name the table with a custom name. " ++
   "Only send one command per message.").toList

/-- One execution of the body of `for i := 0; i < 10; i++` in `main.go` (lines 75-154).
`Exit.ret (some msg)` is `log.Fatalln` with the line `msg`, and `Exit.ret none` is
`os.Exit(0)`. -/
def iteration (w : World) (i : Nat) (s : State) : Step :=
  let s : State := { s with trace := s.trace ++ [Event.completion s.messages] }
  match w.CreateChatCompletion i s.messages with
  | Except.error err =>
    Step.exit (Exit.ret (some ("could not create chat completion: ".toList ++ err))) s
  | Except.ok [] => Step.exit Exit.panic s
  | Except.ok (msg :: _) =>
    let s : State := { s with messages := s.messages ++ [msg] }
    let body := msg.Content
    let body := strings.TrimRight body ".;".toList
    match parseCommand body with
    | Command.Schema tableName =>
      let args := ["duckdb".toList, "-json".toList, "-c".toList,
        "DESCRIBE SELECT * FROM ".toList ++ tableName]
      let s : State := { s with trace := s.trace ++ [Event.exec args] }
      let r := w.Run i args
      match r.err with
      | some err =>
        Step.exit (Exit.ret (some ("could not run duckdb to describe table: ".toList ++ err))) s
      | none =>
        match w.Unmarshal r.stdout with
        | Except.error err =>
          Step.exit (Exit.ret
            (some ("could not unmarshal duckdb describe output: ".toList ++ err))) s
        | Except.ok fields =>
          match w.Marshal fields with
          | Except.error err =>
            Step.exit (Exit.ret
              (some ("could not marshal duckdb describe output: ".toList ++ err))) s
          | Except.ok modifiedOutput =>
            Step.next { s with messages := s.messages ++
              [{ Role := "user".toList,
                 Content := modifiedOutput ++ "\n".toList ++ assistantInstructions }] }
    | Command.Query query =>
      let args := ["duckdb".toList, "-c".toList, query]
      let s : State := { s with trace := s.trace ++ [Event.exec args] }
      let r := w.Run i args
      match r.err with
      | some _ =>
        Step.next { s with messages := s.messages ++
          [{ Role := "user".toList,
             Content := r.stderr ++ "\n".toList ++ "Please retry.".toList ++ "\n".toList ++
               assistantInstructions }] }
      | none =>
        let s : State := { s with trace := s.trace ++ [Event.read] }
        match w.ReadString i with
        | ReadResult.eof _ =>
          Step.exit (Exit.ret (some ("could not read input: ".toList ++ "EOF".toList))) s
        | ReadResult.failed _ err =>
          Step.exit (Exit.ret (some ("could not read input: ".toList ++ err))) s
        | ReadResult.line line =>
          let line := strings.TrimSpace line
          if line = "exit".toList then Step.exit (Exit.ret none) s
          else
            Step.next { s with messages := s.messages ++
              [{ Role := "user".toList,
                 Content := "Please retry with this additional constraint: ".toList ++ line ++
                   "\n".toList ++ assistantInstructions }] }
    | Command.Invalid body =>
      Step.exit (Exit.ret (some ("invalid assistant command: ".toList ++ body))) s

end Main

/-- The arguments of the describe run. -/
def describeArgs (tableName : Str) : List Str :=
  ["duckdb".toList, "-json".toList, "-c".toList, "DESCRIBE SELECT * FROM ".toList ++ tableName]

/-- The arguments of the query run. -/
def queryArgs (query : Str) : List Str :=
  ["duckdb".toList, "-c".toList, query]

/-- A scripted world, for concrete runs: the assistant replies with `replies`, one per
iteration, each as the single choice of its completion; the subprocess of iteration `i`
ends as `runs[i]`; the checkpoint of iteration `i` reads `lines[i]`; the question is
`"q\n"`, no table is listed, the token is set, and the describe output decodes to an empty
list that encodes as `"[]"`. -/
def scripted (replies : List Str) (runs : List RunResult) (lines : List ReadResult) : World where
  ReadQuery := ReadResult.line "q\n".toList
  Glob := fun _ => Except.ok []
  Getenv := fun _ => "token".toList
  CreateChatCompletion := fun i _ =>
    match replies.get? i with
    | some content => Except.ok [{ Role := "assistant".toList, Content := content }]
    | none => Except.error "no reply".toList
  Run := fun i _ => (runs.get? i).getD { err := none, stdout := [], stderr := [] }
  Unmarshal := fun _ => Except.ok (some [])
  Marshal := fun _ => Except.ok "[]".toList
  ReadString := fun i => (lines.get? i).getD (ReadResult.eof [])

/-- The empty state. -/
def State.empty : State := { messages := [], trace := [] }

/-! ## Lemmas on the string functions -/

theorem strings.HasPrefix_iff (s pre : Str) : strings.HasPrefix s pre = true ↔ pre <+: s := by
  unfold strings.HasPrefix
  rw [List.prefix_iff_eq_take]
  simp only [Bool.and_eq_true, decide_eq_true_eq, beq_iff_eq]
  constructor
  · rintro ⟨_, h⟩
    exact h.symm
  · intro h
    refine ⟨?_, h.symm⟩
    have hl := congrArg List.length h
    simp only [List.length_take] at hl
    omega

theorem strings.HasPrefix_append (pre x : Str) : strings.HasPrefix (pre ++ x) pre = true :=
  (strings.HasPrefix_iff _ _).2 (List.prefix_append pre x)

theorem strings.TrimPrefix_append (pre x : Str) : strings.TrimPrefix (pre ++ x) pre = x := by
  unfold strings.TrimPrefix
  rw [strings.HasPrefix_append]
  simp

theorem take_indexOf_eq_takeWhile (c : Char) (l : Str) :
    l.take (l.indexOf c) = l.takeWhile (fun x => x != c) := by
  induction l with
  | nil => rfl
  | cons a l ih =>
    by_cases h : a = c
    · subst h
      simp [List.takeWhile]
    · have h' : (a != c) = true := by simpa using h
      rw [List.indexOf_cons_ne _ h, List.take_succ_cons, ih, List.takeWhile_cons, h']
      rfl

/-- The cut `if index := strings.Index(body, "\n"); index != -1 { body = body[:index] }`
keeps exactly the characters before the first newline. -/
theorem cut_at_newline (body : Str) :
    (if strings.Index body '\n' ≠ -1 then body.take (strings.Index body '\n').toNat else body)
      = body.takeWhile (fun x => x != '\n') := by
  unfold strings.Index
  by_cases h : '\n' ∈ body
  · have hne : ((List.indexOf '\n' body : Nat) : Int) ≠ -1 := by omega
    simp only [h, if_true, hne, ne_eq, not_false_eq_true, Int.toNat_ofNat]
    exact take_indexOf_eq_takeWhile _ _
  · simp only [h, if_false, ne_eq, not_true_eq_false]
    symm
    rw [List.takeWhile_eq_self_iff]
    intro x hx
    have : x ≠ '\n' := fun e => h (e ▸ hx)
    simpa using this

theorem parseCommand_schema (rest : Str) :
    parseCommand ("SCHEMA ".toList ++ rest)
      = Command.Schema (rest.takeWhile (fun x => x != '\n')) := by
  unfold parseCommand
  rw [strings.HasPrefix_append]
  simp only [if_true]
  rw [cut_at_newline]
  have h : ("SCHEMA ".toList ++ rest).takeWhile (fun x => x != '\n')
      = "SCHEMA ".toList ++ rest.takeWhile (fun x => x != '\n') := by
    show List.takeWhile _ ('S' :: 'C' :: 'H' :: 'E' :: 'M' :: 'A' :: ' ' :: rest) = _
    simp [List.takeWhile_cons]
  rw [h, strings.TrimPrefix_append]

theorem not_schema_of_query (x : Str) :
    strings.HasPrefix ("QUERY ".toList ++ x) "SCHEMA ".toList = false := by
  rw [Bool.eq_false_iff, ne_eq, strings.HasPrefix_iff]
  rintro ⟨t, ht⟩
  have h0 := congrArg List.head? ht
  simp at h0

theorem parseCommand_query (rest : Str) :
    parseCommand ("QUERY ".toList ++ rest) = Command.Query rest := by
  unfold parseCommand
  rw [not_schema_of_query, strings.HasPrefix_append, strings.TrimPrefix_append]
  simp

theorem parseCommand_invalid (body : Str) (h1 : ¬ "SCHEMA ".toList <+: body)
    (h2 : ¬ "QUERY ".toList <+: body) : parseCommand body = Command.Invalid body := by
  unfold parseCommand
  rw [← strings.HasPrefix_iff, Bool.not_eq_true] at h1 h2
  rw [h1, h2]
  simp

theorem TrimRight_append_cutset (s p cutset : Str) (hp : ∀ c ∈ p, c ∈ cutset) :
    strings.TrimRight (s ++ p) cutset = strings.TrimRight s cutset := by
  unfold strings.TrimRight
  induction p using List.reverseRecOn with
  | nil => simp
  | append_singleton p c ih =>
    rw [← List.append_assoc, List.rdropWhile_concat_pos]
    · exact ih (fun x hx => hp x (List.mem_append_left _ hx))
    · simpa using hp c (by simp)

theorem TrimRight_append_left (pre s cutset : Str) (hpre : pre ≠ [])
    (hlast : pre.getLast hpre ∉ cutset) :
    strings.TrimRight (pre ++ s) cutset = pre ++ strings.TrimRight s cutset := by
  unfold strings.TrimRight
  induction s using List.reverseRecOn with
  | nil =>
    simp only [List.append_nil, List.rdropWhile_nil]
    rw [List.rdropWhile_eq_self_iff]
    intro hl
    simpa using hlast
  | append_singleton s c ih =>
    by_cases hc : c ∈ cutset
    · have hc' : (fun c => cutset.contains c) c = true := by simpa using hc
      rw [← List.append_assoc, List.rdropWhile_concat_pos _ _ _ hc',
        List.rdropWhile_concat_pos _ _ _ hc', ih]
    · have hc' : ¬ (fun c => cutset.contains c) c = true := by simpa using hc
      rw [← List.append_assoc, List.rdropWhile_concat_neg _ _ _ hc',
        List.rdropWhile_concat_neg _ _ _ hc', List.append_assoc]

theorem TrimRight_last (s cutset : Str) (c : Char)
    (h : (strings.TrimRight s cutset).getLast? = some c) : c ∉ cutset := by
  unfold strings.TrimRight at h
  have hne : List.rdropWhile (fun c => cutset.contains c) s ≠ [] := by
    intro e
    rw [e] at h
    simp at h
  have := List.rdropWhile_last_not (fun c => cutset.contains c) s hne
  rw [List.getLast?_eq_getLast _ hne] at h
  simp only [Option.some.injEq] at h
  rw [h] at this
  simpa using this

theorem TrimRight_decomp (s cutset : Str) :
    ∃ q, s = strings.TrimRight s cutset ++ q ∧ ∀ c ∈ q, c ∈ cutset := by
  unfold strings.TrimRight
  induction s using List.reverseRecOn with
  | nil => exact ⟨[], by simp⟩
  | append_singleton s c ih =>
    by_cases hc : c ∈ cutset
    · have hc' : (fun c => cutset.contains c) c = true := by simpa using hc
      obtain ⟨q, hq, hall⟩ := ih
      refine ⟨q ++ [c], ?_, ?_⟩
      · rw [List.rdropWhile_concat_pos _ _ _ hc', ← List.append_assoc, ← hq]
      · intro x hx
        rcases List.mem_append.1 hx with h | h
        · exact hall x h
        · rw [List.mem_singleton.1 h]
          exact hc
    · have hc' : ¬ (fun c => cutset.contains c) c = true := by simpa using hc
      exact ⟨[], by rw [List.rdropWhile_concat_neg _ _ _ hc']; simp, by simp⟩

/-! ## The command grammar -/

/-- C1: parsing is total and classifies by literal prefix. For every assistant reply `r`,
with `t` the reply without its trailing `.` and `;` characters, the switch of the loop
(the one function `parseCommand` that both `iteration` of `cmd/root.go` and
`Main.iteration` of `main.go` match on) takes the Schema arm exactly when `t` starts with
`"SCHEMA "`, the Query arm exactly when `t` starts with `"QUERY "`, never both, and the
Invalid arm with `rawText = t` in every other case; lowercase commands, leading white
space and `SCHEMA`/`QUERY` without the space are Invalid. -/
theorem C1_parse_total_by_prefix (r : Str) :
    ((∃ tableName, replyCommand r = Command.Schema tableName) ↔
        "SCHEMA ".toList <+: strings.TrimRight r ".;".toList) ∧
    ((∃ sql, replyCommand r = Command.Query sql) ↔
        "QUERY ".toList <+: strings.TrimRight r ".;".toList) ∧
    ¬ ("SCHEMA ".toList <+: strings.TrimRight r ".;".toList ∧
        "QUERY ".toList <+: strings.TrimRight r ".;".toList) ∧
    ((∃ rawText, replyCommand r = Command.Invalid rawText) ↔
        (¬ "SCHEMA ".toList <+: strings.TrimRight r ".;".toList ∧
         ¬ "QUERY ".toList <+: strings.TrimRight r ".;".toList)) ∧
    (∀ rawText, replyCommand r = Command.Invalid rawText →
        rawText = strings.TrimRight r ".;".toList) ∧
    replyCommand "schema foo.json".toList = Command.Invalid "schema foo.json".toList ∧
    replyCommand "query SELECT 1".toList = Command.Invalid "query SELECT 1".toList ∧
    replyCommand " SCHEMA foo.json".toList = Command.Invalid " SCHEMA foo.json".toList ∧
    replyCommand "\nQUERY SELECT 1".toList = Command.Invalid "\nQUERY SELECT 1".toList ∧
    replyCommand "SCHEMA".toList = Command.Invalid "SCHEMA".toList ∧
    replyCommand "QUERY".toList = Command.Invalid "QUERY".toList := by
  refine ⟨?_, ?_, ?_, ?_, ?_, by decide, by decide, by decide, by decide, by decide, by decide⟩
  all_goals try unfold replyCommand
  all_goals generalize strings.TrimRight r ".;".toList = t
  · constructor
    · rintro ⟨tn, h⟩
      by_contra hs
      by_cases hq : "QUERY ".toList <+: t
      · obtain ⟨x, rfl⟩ := hq
        rw [parseCommand_query] at h
        cases h
      · rw [parseCommand_invalid t hs hq] at h
        cases h
    · rintro ⟨x, rfl⟩
      exact ⟨_, parseCommand_schema x⟩
  · constructor
    · rintro ⟨q, h⟩
      by_contra hq
      by_cases hs : "SCHEMA ".toList <+: t
      · obtain ⟨x, rfl⟩ := hs
        rw [parseCommand_schema] at h
        cases h
      · rw [parseCommand_invalid t hs hq] at h
        cases h
    · rintro ⟨x, rfl⟩
      exact ⟨_, parseCommand_query x⟩
  · rintro ⟨hs, ⟨x, rfl⟩⟩
    have := not_schema_of_query x
    rw [(strings.HasPrefix_iff _ _).2 hs] at this
    cases this
  · constructor
    · rintro ⟨raw, h⟩
      constructor
      · rintro ⟨x, rfl⟩
        rw [parseCommand_schema] at h
        cases h
      · rintro ⟨x, rfl⟩
        rw [parseCommand_query] at h
        cases h
    · rintro ⟨hs, hq⟩
      exact ⟨t, parseCommand_invalid t hs hq⟩
  · intro raw h
    by_cases hs : "SCHEMA ".toList <+: t
    · obtain ⟨x, rfl⟩ := hs
      rw [parseCommand_schema] at h
      cases h
    · by_cases hq : "QUERY ".toList <+: t
      · obtain ⟨x, rfl⟩ := hq
        rw [parseCommand_query] at h
        cases h
      · rw [parseCommand_invalid t hs hq] at h
        cases h
        rfl

/-- C2: for every assistant reply whose text, after the trailing `.` and `;` characters
of the whole reply are removed, is `"SCHEMA "` followed by `rest`, the table name is
`rest` up to its first newline (all of `rest` when it has none), verbatim; and the reply
`"SCHEMA foo.json\nextra text"` yields the table name `"foo.json"`. -/
theorem C2_schema_first_line (r rest : Str)
    (h : strings.TrimRight r ".;".toList = "SCHEMA ".toList ++ rest) :
    replyCommand r = Command.Schema (rest.takeWhile (fun c => c != '\n')) ∧
    ('\n' ∉ rest → replyCommand r = Command.Schema rest) ∧
    (∀ line tail, rest = line ++ '\n' :: tail → '\n' ∉ line →
        replyCommand r = Command.Schema line) ∧
    replyCommand "SCHEMA foo.json\nextra text".toList = Command.Schema "foo.json".toList := by
  have key : replyCommand r = Command.Schema (rest.takeWhile (fun c => c != '\n')) := by
    unfold replyCommand
    rw [h, parseCommand_schema]
  refine ⟨key, ?_, ?_, by decide⟩
  · intro hn
    rw [key]
    congr 1
    rw [List.takeWhile_eq_self_iff]
    intro x hx
    have : x ≠ '\n' := fun e => hn (e ▸ hx)
    simpa using this
  · rintro line tail rfl hn
    rw [key]
    congr 1
    rw [List.takeWhile_append_of_pos, List.takeWhile_cons]
    · simp
    · intro x hx
      have : x ≠ '\n' := fun e => hn (e ▸ hx)
      simpa using this

theorem C2_schema_first_line_witness :
    strings.TrimRight "SCHEMA a.csv;\nb.".toList ".;".toList
        = "SCHEMA ".toList ++ "a.csv;\nb".toList ∧
    replyCommand "SCHEMA a.csv;\nb.".toList = Command.Schema "a.csv;".toList :=
  ⟨by decide, ((C2_schema_first_line "SCHEMA a.csv;\nb.".toList "a.csv;\nb".toList
    (by decide)).2.2.1 "a.csv;".toList "b".toList (by decide) (by decide))⟩

/-- C3: trailing `.` and `;` characters are stripped before the prefixes are matched, and
the sql of a Query is the whole remainder. For every `s` and every `p` made only of `.`
and `;`, the reply `"QUERY " ++ s ++ p` is a Query whose sql is `s` without its own
trailing `.`/`;` characters, that is `s = sql ++ q` with `q` made only of `.` and `;` and
`sql` not ending in either; the sql of any Query never ends in `.` or `;`; and
`"QUERY SELECT 1;"` and `"QUERY SELECT 1."` both yield the sql `"SELECT 1"`. -/
theorem C3_query_sql_trimmed (s p : Str) (hp : ∀ c ∈ p, c = '.' ∨ c = ';') :
    replyCommand ("QUERY ".toList ++ s ++ p) = Command.Query (strings.TrimRight s ".;".toList) ∧
    (∃ q, s = strings.TrimRight s ".;".toList ++ q ∧ (∀ c ∈ q, c = '.' ∨ c = ';')) ∧
    (∀ r sql, replyCommand r = Command.Query sql →
        ∀ c, sql.getLast? = some c → c ≠ '.' ∧ c ≠ ';') ∧
    replyCommand "QUERY SELECT 1;".toList = Command.Query "SELECT 1".toList ∧
    replyCommand "QUERY SELECT 1.".toList = Command.Query "SELECT 1".toList ∧
    replyCommand "QUERY SELECT 1;\nSELECT 2.;".toList
      = Command.Query "SELECT 1;\nSELECT 2".toList := by
  refine ⟨?_, ?_, ?_, by decide, by decide, by decide⟩
  · unfold replyCommand
    rw [TrimRight_append_cutset _ p _ (fun c hc => by
      rcases hp c hc with rfl | rfl <;> decide)]
    rw [TrimRight_append_left "QUERY ".toList s _ (by decide) (by decide)]
    exact parseCommand_query _
  · obtain ⟨q, hq, hall⟩ := TrimRight_decomp s ".;".toList
    refine ⟨q, hq, fun c hc => ?_⟩
    have hmem := hall c hc
    simpa using hmem
  · intro r sql h c hc
    unfold replyCommand at h
    have hq : "QUERY ".toList <+: strings.TrimRight r ".;".toList := by
      by_contra hq
      by_cases hs : "SCHEMA ".toList <+: strings.TrimRight r ".;".toList
      · obtain ⟨x, hx⟩ := hs
        rw [← hx, parseCommand_schema] at h
        cases h
      · rw [parseCommand_invalid _ hs hq] at h
        cases h
    obtain ⟨x, hx⟩ := hq
    rw [← hx, parseCommand_query] at h
    cases h
    have hlast : (strings.TrimRight r ".;".toList).getLast? = some c := by
      rw [← hx]
      cases sql with
      | nil => simp at hc
      | cons a x => rw [List.getLast?_append_of_ne_nil _ (by simp)]; exact hc
    have := TrimRight_last _ _ _ hlast
    constructor
    · rintro rfl
      exact this (by decide)
    · rintro rfl
      exact this (by decide)


theorem C3_query_sql_trimmed_witness :
    (∀ c ∈ ".;".toList, c = '.' ∨ c = ';') ∧
    replyCommand ("QUERY ".toList ++ "SELECT 1;;".toList ++ ".;".toList)
      = Command.Query "SELECT 1".toList :=
  ⟨by decide, (C3_query_sql_trimmed "SELECT 1;;".toList ".;".toList (by decide)).1⟩

/-! ## Lemmas on one iteration -/

theorem iteration_error (w : World) (i : Nat) (s : State) (err : Str)
    (hreply : w.CreateChatCompletion i s.messages = Except.error err) :
    iteration w i s = Step.exit
      (Exit.ret (some ("could not create chat completion: ".toList ++ err)))
      { messages := s.messages, trace := s.trace ++ [Event.completion s.messages] } := by
  simp only [iteration, hreply]

theorem iteration_panic (w : World) (i : Nat) (s : State)
    (hreply : w.CreateChatCompletion i s.messages = Except.ok []) :
    iteration w i s = Step.exit Exit.panic
      { messages := s.messages, trace := s.trace ++ [Event.completion s.messages] } := by
  simp only [iteration, hreply]

theorem iteration_invalid (w : World) (i : Nat) (s : State) (msg : Message)
    (rest : List Message) (raw : Str)
    (hreply : w.CreateChatCompletion i s.messages = Except.ok (msg :: rest))
    (hcmd : replyCommand msg.Content = Command.Invalid raw) :
    iteration w i s = Step.exit
      (Exit.ret (some ("invalid assistant command: ".toList ++ raw)))
      { messages := s.messages ++ [msg],
        trace := s.trace ++ [Event.completion s.messages] } := by
  unfold replyCommand at hcmd
  simp only [iteration, hreply, hcmd]

theorem iteration_schema (w : World) (i : Nat) (s : State) (msg : Message)
    (rest : List Message) (tableName : Str)
    (hreply : w.CreateChatCompletion i s.messages = Except.ok (msg :: rest))
    (hcmd : replyCommand msg.Content = Command.Schema tableName) :
    iteration w i s =
      match (w.Run i (describeArgs tableName)).err with
      | some err =>
        Step.exit (Exit.ret (some ("could not run duckdb to describe table: ".toList ++ err)))
          { messages := s.messages ++ [msg],
            trace := s.trace ++ [Event.completion s.messages,
              Event.exec (describeArgs tableName)] }
      | none =>
        match w.Unmarshal (w.Run i (describeArgs tableName)).stdout with
        | Except.error err =>
          Step.exit (Exit.ret
            (some ("could not unmarshal duckdb describe output: ".toList ++ err)))
            { messages := s.messages ++ [msg],
              trace := s.trace ++ [Event.completion s.messages,
                Event.exec (describeArgs tableName)] }
        | Except.ok fields =>
          match w.Marshal fields with
          | Except.error err =>
            Step.exit (Exit.ret
              (some ("could not marshal duckdb describe output: ".toList ++ err)))
              { messages := s.messages ++ [msg],
                trace := s.trace ++ [Event.completion s.messages,
                  Event.exec (describeArgs tableName)] }
          | Except.ok modifiedOutput =>
            Step.next
              { messages := s.messages ++ [msg, Message.mk "user".toList
                  (modifiedOutput ++ "\n".toList ++ assistantInstructions)],
                trace := s.trace ++ [Event.completion s.messages,
                  Event.exec (describeArgs tableName)] } := by
  unfold replyCommand at hcmd
  simp only [iteration, hreply, hcmd, describeArgs, List.append_assoc, List.singleton_append]

theorem iteration_query (w : World) (i : Nat) (s : State) (msg : Message)
    (rest : List Message) (sql : Str)
    (hreply : w.CreateChatCompletion i s.messages = Except.ok (msg :: rest))
    (hcmd : replyCommand msg.Content = Command.Query sql) :
    iteration w i s =
      match (w.Run i (queryArgs sql)).err with
      | some _ =>
        Step.next
          { messages := s.messages ++ [msg, Message.mk "user".toList
                  ((w.Run i (queryArgs sql)).stderr ++ "\nPlease retry.\n".toList ++
                assistantInstructions)],
            trace := s.trace ++ [Event.completion s.messages, Event.exec (queryArgs sql)] }
      | none =>
        match w.ReadString i with
        | ReadResult.eof _ =>
          Step.exit (Exit.ret none)
            { messages := s.messages ++ [msg],
              trace := s.trace ++ [Event.completion s.messages, Event.exec (queryArgs sql),
                Event.read] }
        | ReadResult.failed _ err =>
          Step.exit (Exit.ret (some ("could not read input: ".toList ++ err)))
            { messages := s.messages ++ [msg],
              trace := s.trace ++ [Event.completion s.messages, Event.exec (queryArgs sql),
                Event.read] }
        | ReadResult.line line =>
          if strings.TrimSpace line = "exit".toList then
            Step.exit (Exit.ret none)
              { messages := s.messages ++ [msg],
                trace := s.trace ++ [Event.completion s.messages, Event.exec (queryArgs sql),
                  Event.read] }
          else
            Step.next
              { messages := s.messages ++ [msg, Message.mk "user".toList
                  ("Please retry with this additional constraint: ".toList ++
                    strings.TrimSpace line ++ "\n".toList ++ assistantInstructions ++
                    "\nDo not apologize.".toList)],
                trace := s.trace ++ [Event.completion s.messages, Event.exec (queryArgs sql),
                  Event.read] } := by
  unfold replyCommand at hcmd
  simp only [iteration, hreply, hcmd, queryArgs, List.append_assoc, List.singleton_append]
  rfl

theorem loop_exit (w : World) (remaining i : Nat) (s s' : State) (e : Exit)
    (h : iteration w i s = Step.exit e s') :
    loop w (remaining + 1) i s = { exit := e, state := s' } := by
  simp only [loop, h]

theorem loop_next (w : World) (remaining i : Nat) (s s' : State)
    (h : iteration w i s = Step.next s') :
    loop w (remaining + 1) i s = loop w remaining (i + 1) s' := by
  simp only [loop, h]

theorem completions_append (t u : List Event) :
    completions (t ++ u) = completions t + completions u := by
  simp [completions]

theorem setup_next (w : World) (s : State) (h : setup w = Step.next s) :
    s.trace = [Event.read] ∧
    ∃ query tables, s.messages =
      [Message.mk "system".toList (systemPrompt ++ "\n".toList ++ assistantInstructions),
       Message.mk "user".toList (userPrompt query tables assistantInstructions)] := by
  unfold setup at h
  split at h
  · cases h
  · cases h
  · split at h
    · cases h
    · split at h
      · cases h
      · split at h
        · cases h
        · cases h
          exact ⟨rfl, _, _, rfl⟩

/-- Every way an iteration can go: it requests one completion with the whole transcript,
then either leaves the function with the transcript extended by at most the reply, or
goes on with the transcript extended by the reply and one `user` message. -/
theorem iteration_cases (w : World) (i : Nat) (s : State) :
    (∃ e, iteration w i s = Step.exit e
      { messages := s.messages, trace := s.trace ++ [Event.completion s.messages] }) ∨
    (∃ reply rest, w.CreateChatCompletion i s.messages = Except.ok (reply :: rest) ∧
      ((∃ e t, iteration w i s = Step.exit e
          { messages := s.messages ++ [reply],
            trace := s.trace ++ Event.completion s.messages :: t } ∧ completions t = 0) ∨
       (∃ u t, iteration w i s = Step.next
          { messages := s.messages ++ [reply, u],
            trace := s.trace ++ Event.completion s.messages :: t } ∧
          u.Role = "user".toList ∧ completions t = 0))) := by
  cases hreply : w.CreateChatCompletion i s.messages with
  | error err => exact Or.inl ⟨_, iteration_error w i s err hreply⟩
  | ok choices =>
    cases choices with
    | nil => exact Or.inl ⟨_, iteration_panic w i s hreply⟩
    | cons msg rest =>
      refine Or.inr ⟨msg, rest, rfl, ?_⟩
      cases hcmd : replyCommand msg.Content with
      | Invalid raw =>
        exact Or.inl ⟨_, [], iteration_invalid w i s msg rest raw hreply hcmd, rfl⟩
      | Schema tableName =>
        have hit := iteration_schema w i s msg rest tableName hreply hcmd
        cases hrun : (w.Run i (describeArgs tableName)).err with
        | some err =>
          rw [hrun] at hit
          exact Or.inl ⟨_, [_], hit, rfl⟩
        | none =>
          rw [hrun] at hit
          cases hun : w.Unmarshal (w.Run i (describeArgs tableName)).stdout with
          | error err =>
            simp only [hun] at hit
            exact Or.inl ⟨_, [_], hit, rfl⟩
          | ok fields =>
            cases hm : w.Marshal fields with
            | error err =>
              simp only [hun, hm] at hit
              exact Or.inl ⟨_, [_], hit, rfl⟩
            | ok out =>
              simp only [hun, hm] at hit
              exact Or.inr ⟨_, [_], hit, rfl, rfl⟩
      | Query sql =>
        have hit := iteration_query w i s msg rest sql hreply hcmd
        cases hrun : (w.Run i (queryArgs sql)).err with
        | some err =>
          rw [hrun] at hit
          exact Or.inr ⟨_, [_], hit, rfl, rfl⟩
        | none =>
          rw [hrun] at hit
          cases hread : w.ReadString i with
          | eof data =>
            simp only [hread] at hit
            exact Or.inl ⟨_, [_, _], hit, rfl⟩
          | failed data err =>
            simp only [hread] at hit
            exact Or.inl ⟨_, [_, _], hit, rfl⟩
          | line line =>
            simp only [hread] at hit
            by_cases hexit : strings.TrimSpace line = "exit".toList
            · simp only [hexit, if_true] at hit
              exact Or.inl ⟨_, [_, _], hit, rfl⟩
            · simp only [hexit, if_false] at hit
              exact Or.inr ⟨_, [_, _], hit, rfl, rfl⟩

theorem iteration_completions (w : World) (i : Nat) (s : State) :
    completions (iteration w i s).state.trace = completions s.trace + 1 := by
  rcases iteration_cases w i s with ⟨e, h⟩ | ⟨reply, rest, -, ⟨e, t, h, ht⟩ | ⟨u, t, h, -, ht⟩⟩
  · rw [h]
    simp [Step.state, completions]
  · rw [h]
    simp only [Step.state, completions_append]
    rw [show Event.completion s.messages :: t = [Event.completion s.messages] ++ t from rfl,
      completions_append, ht]
    simp [completions]
  · rw [h]
    simp only [Step.state, completions_append]
    rw [show Event.completion s.messages :: t = [Event.completion s.messages] ++ t from rfl,
      completions_append, ht]
    simp [completions]

theorem iteration_extends (w : World) (i : Nat) (s : State) :
    s.messages <+: (iteration w i s).state.messages ∧
    s.trace ++ [Event.completion s.messages] <+: (iteration w i s).state.trace := by
  rcases iteration_cases w i s with ⟨e, h⟩ | ⟨reply, rest, -, ⟨e, t, h, -⟩ | ⟨u, t, h, -, -⟩⟩
  · rw [h]
    exact ⟨List.prefix_refl _, List.prefix_refl _⟩
  · rw [h]
    exact ⟨List.prefix_append _ _, ⟨t, by simp [Step.state]⟩⟩
  · rw [h]
    exact ⟨List.prefix_append _ _, ⟨t, by simp [Step.state]⟩⟩

theorem loop_completions (w : World) (remaining i : Nat) (s : State) :
    completions (loop w remaining i s).state.trace ≤ completions s.trace + remaining := by
  induction remaining generalizing i s with
  | zero => simp [loop]
  | succ k ih =>
    have hc := iteration_completions w i s
    cases hit : iteration w i s with
    | next s' =>
      rw [loop_next w k i s s' hit]
      rw [hit] at hc
      have := ih (i + 1) s'
      simp only [Step.state] at hc
      omega
    | exit e s' =>
      rw [loop_exit w k i s s' e hit]
      rw [hit] at hc
      simp only [Step.state] at hc
      simp only
      omega

theorem loop_extends (w : World) (remaining i : Nat) (s : State) :
    s.messages <+: (loop w remaining i s).state.messages := by
  induction remaining generalizing i s with
  | zero => simp [loop]
  | succ k ih =>
    have hp := (iteration_extends w i s).1
    cases hit : iteration w i s with
    | next s' =>
      rw [loop_next w k i s s' hit]
      rw [hit] at hp
      exact hp.trans (ih (i + 1) s')
    | exit e s' =>
      rw [loop_exit w k i s s' e hit]
      rw [hit] at hp
      exact hp

theorem loop_of_stateAt (w : World) (k i : Nat) (s sk : State)
    (h : stateAt w k i s = some sk) :
    loop w k i s = { exit := Exit.ret (some messageLimitReached), state := sk } := by
  induction k generalizing i s with
  | zero =>
    simp only [stateAt, Option.some.injEq] at h
    simp [loop, h]
  | succ k ih =>
    cases hit : iteration w i s with
    | next s' =>
      simp only [stateAt, hit] at h
      rw [loop_next w k i s s' hit]
      exact ih (i + 1) s' h
    | exit e s' =>
      simp only [stateAt, hit] at h
      cases h

theorem stateAt_succ_iff (w : World) (k i : Nat) (s s'' : State) :
    stateAt w (k + 1) i s = some s'' ↔
      ∃ sk, stateAt w k i s = some sk ∧ iteration w (i + k) sk = Step.next s'' := by
  induction k generalizing i s with
  | zero =>
    simp only [stateAt, Nat.add_zero, Option.some.injEq, exists_eq_left']
    cases hit : iteration w i s with
    | next s' => simp
    | exit e s' => simp
  | succ k ih =>
    cases hit : iteration w i s with
    | next s' =>
      have h1 : stateAt w (k + 1 + 1) i s = stateAt w (k + 1) (i + 1) s' := by
        simp only [stateAt, hit]
      have h2 : stateAt w (k + 1) i s = stateAt w k (i + 1) s' := by
        simp only [stateAt, hit]
      rw [h1, h2, ih (i + 1) s', show i + 1 + k = i + (k + 1) by omega]
    | exit e s' =>
      have h1 : stateAt w (k + 1 + 1) i s = none := by
        simp only [stateAt, hit]
      have h2 : stateAt w (k + 1) i s = none := by
        simp only [stateAt, hit]
      rw [h1, h2]
      simp

theorem stateAt_extends (w : World) (j k i : Nat) (s sj sk : State) (hjk : j ≤ k)
    (hj : stateAt w j i s = some sj) (hk : stateAt w k i s = some sk) :
    sj.messages <+: sk.messages := by
  induction k generalizing sk with
  | zero =>
    have : j = 0 := by omega
    subst this
    rw [hj] at hk
    cases hk
    exact List.prefix_refl _
  | succ k ih =>
    rcases Nat.lt_or_ge j (k + 1) with hlt | hge
    · obtain ⟨sk', hk', hit⟩ := (stateAt_succ_iff w k i s sk).1 hk
      have hp := (iteration_extends w (i + k) sk').1
      rw [hit] at hp
      exact (ih sk' (by omega) hk').trans hp
    · have : j = k + 1 := by omega
      subst this
      rw [hj] at hk
      cases hk
      exact List.prefix_refl _

theorem stateAt_loop_extends (w : World) (j k i : Nat) (s sj : State) (hjk : j ≤ k)
    (hj : stateAt w j i s = some sj) :
    sj.messages <+: (loop w k i s).state.messages := by
  induction j generalizing k i s with
  | zero =>
    simp only [stateAt, Option.some.injEq] at hj
    subst hj
    exact loop_extends w k i s
  | succ j ih =>
    obtain ⟨k, rfl⟩ : ∃ k', k = k' + 1 := ⟨k - 1, by omega⟩
    cases hit : iteration w i s with
    | next s' =>
      simp only [stateAt, hit] at hj
      rw [loop_next w k i s s' hit]
      exact ih k (i + 1) s' (by omega) hj
    | exit e s' =>
      simp only [stateAt, hit] at hj
      cases hj

theorem setup_completions (w : World) : completions (setup w).state.trace = 0 := by
  unfold setup
  repeat' split
  all_goals rfl

theorem iteration_next (w : World) (i : Nat) (s s' : State)
    (h : iteration w i s = Step.next s') :
    ∃ reply rest u, w.CreateChatCompletion i s.messages = Except.ok (reply :: rest) ∧
      s'.messages = s.messages ++ [reply, u] ∧ u.Role = "user".toList ∧
      completions s'.trace = completions s.trace + 1 := by
  have hc := iteration_completions w i s
  rcases iteration_cases w i s with ⟨e, h'⟩ | ⟨reply, rest, hr, ⟨e, t, h', -⟩ | ⟨u, t, h', hu, -⟩⟩
  · rw [h] at h'
    cases h'
  · rw [h] at h'
    cases h'
  · rw [h] at hc
    rw [h] at h'
    cases h'
    exact ⟨reply, rest, u, hr, rfl, hu, hc⟩

theorem stateAt_shape (w : World) (k i : Nat) (s sk : State)
    (h : stateAt w k i s = some sk) :
    sk.messages.length = s.messages.length + 2 * k ∧
    completions sk.trace = completions s.trace + k ∧
    (0 < k → ∃ u, sk.messages.getLast? = some u ∧ u.Role = "user".toList) := by
  induction k generalizing sk with
  | zero =>
    simp only [stateAt, Option.some.injEq] at h
    subst h
    exact ⟨rfl, rfl, fun h0 => absurd h0 (by omega)⟩
  | succ k ih =>
    obtain ⟨sk', hk', hit⟩ := (stateAt_succ_iff w k i s sk).1 h
    obtain ⟨hlen, hcomp, -⟩ := ih sk' hk'
    obtain ⟨reply, rest, u, -, hm, hu, hc⟩ := iteration_next w (i + k) sk' sk hit
    refine ⟨?_, ?_, fun _ => ⟨u, ?_, hu⟩⟩
    · rw [hm, List.length_append, hlen]
      simp only [List.length_cons, List.length_nil]
      omega
    · omega
    · rw [hm]
      simp

/-! ## The conversation loop -/

/-- C5: an Invalid command is fatal and never retried. For every state of the transcript
and every assistant reply whose trimmed text starts with neither `"SCHEMA "` nor
`"QUERY "`, the iteration returns the error `invalid assistant command: <trimmed text>`,
the loop ends there with that error, the reply is the only message appended, and the only
call made is the completion request of that iteration: no subprocess run, no read of the
human, no further completion. When this is the first reply of a session, the session ends
with that error and no subprocess has run. -/
theorem C5_invalid_is_fatal (w : World) (i remaining : Nat) (s : State) (msg : Message)
    (rest : List Message)
    (hreply : w.CreateChatCompletion i s.messages = Except.ok (msg :: rest))
    (hs : ¬ "SCHEMA ".toList <+: strings.TrimRight msg.Content ".;".toList)
    (hq : ¬ "QUERY ".toList <+: strings.TrimRight msg.Content ".;".toList) :
    iteration w i s = Step.exit
      (Exit.ret (some ("invalid assistant command: ".toList ++
        strings.TrimRight msg.Content ".;".toList)))
      { messages := s.messages ++ [msg],
        trace := s.trace ++ [Event.completion s.messages] } ∧
    loop w (remaining + 1) i s =
      { exit := Exit.ret (some ("invalid assistant command: ".toList ++
          strings.TrimRight msg.Content ".;".toList)),
        state := { messages := s.messages ++ [msg],
                   trace := s.trace ++ [Event.completion s.messages] } } ∧
    execs (loop w (remaining + 1) i s).state.trace = execs s.trace ∧
    reads (loop w (remaining + 1) i s).state.trace = reads s.trace ∧
    completions (loop w (remaining + 1) i s).state.trace = completions s.trace + 1 ∧
    (i = 0 → setup w = Step.next s → ∀ messageLimit : Int, 0 < messageLimit →
      (RunE w messageLimit).exit = Exit.ret (some ("invalid assistant command: ".toList ++
          strings.TrimRight msg.Content ".;".toList)) ∧
      (RunE w messageLimit).state.messages = s.messages ++ [msg] ∧
      execs (RunE w messageLimit).state.trace = 0 ∧
      completions (RunE w messageLimit).state.trace = 1) := by
  have hit := iteration_invalid w i s msg rest _ hreply (parseCommand_invalid _ hs hq)
  have hloop : ∀ k, loop w (k + 1) i s = _ := fun k => loop_exit w k i s _ _ hit
  refine ⟨hit, hloop remaining, ?_, ?_, ?_, ?_⟩
  · rw [hloop]
    simp [execs]
  · rw [hloop]
    simp [reads]
  · rw [hloop]
    simp [completions]
  · rintro rfl hsetup messageLimit hpos
    obtain ⟨k, hk⟩ : ∃ k, messageLimit.toNat = k + 1 :=
      ⟨messageLimit.toNat - 1, by omega⟩
    obtain ⟨htrace, -⟩ := setup_next w s hsetup
    simp only [RunE, hsetup, hk, hloop, htrace]
    simp [execs, completions]

theorem C5_invalid_is_fatal_witness :
    iteration (scripted ["Sure! SCHEMA a.csv.".toList] [] []) 0 State.empty = Step.exit
      (Exit.ret (some "invalid assistant command: Sure! SCHEMA a.csv".toList))
      { messages := [{ Role := "assistant".toList, Content := "Sure! SCHEMA a.csv.".toList }],
        trace := [Event.completion []] } :=
  (C5_invalid_is_fatal (scripted ["Sure! SCHEMA a.csv.".toList] [] []) 0 0 State.empty
    { Role := "assistant".toList, Content := "Sure! SCHEMA a.csv.".toList } []
    rfl (by decide) (by decide)).1

/-- C6: a failed query execution is recoverable and costs exactly one turn. For every
Query command whose `duckdb` run ends with an error, with `e` the captured standard-error
text, the iteration does not leave the function: after the assistant reply it appends
exactly one message, of role `user` and of content `e ++ "\nPlease retry.\n" ++
assistantInstructions`, it makes no read of the human, and the loop goes on with the next
iteration, the counter one higher and the remaining budget one lower. -/
theorem C6_query_failure_retries (w : World) (i remaining : Nat) (s : State) (msg : Message)
    (rest : List Message) (sql err : Str)
    (hreply : w.CreateChatCompletion i s.messages = Except.ok (msg :: rest))
    (hcmd : replyCommand msg.Content = Command.Query sql)
    (hfail : (w.Run i ["duckdb".toList, "-c".toList, sql]).err = some err) :
    iteration w i s = Step.next
      { messages := s.messages ++ [msg] ++
          [{ Role := "user".toList,
             Content := (w.Run i ["duckdb".toList, "-c".toList, sql]).stderr ++
               "\nPlease retry.\n".toList ++ assistantInstructions }],
        trace := s.trace ++ [Event.completion s.messages,
          Event.exec ["duckdb".toList, "-c".toList, sql]] } ∧
    loop w (remaining + 1) i s = loop w remaining (i + 1)
      { messages := s.messages ++ [msg] ++
          [{ Role := "user".toList,
             Content := (w.Run i ["duckdb".toList, "-c".toList, sql]).stderr ++
               "\nPlease retry.\n".toList ++ assistantInstructions }],
        trace := s.trace ++ [Event.completion s.messages,
          Event.exec ["duckdb".toList, "-c".toList, sql]] } ∧
    (iteration w i s).state.messages.length = s.messages.length + 2 ∧
    reads (iteration w i s).state.trace = reads s.trace ∧
    (remaining = 0 → loop w (remaining + 1) i s =
      { exit := Exit.ret (some messageLimitReached),
        state := (iteration w i s).state }) := by
  have hit := iteration_query w i s msg rest sql hreply hcmd
  simp only [queryArgs, hfail] at hit
  have hit' : iteration w i s = Step.next
      { messages := s.messages ++ [msg] ++
          [{ Role := "user".toList,
             Content := (w.Run i ["duckdb".toList, "-c".toList, sql]).stderr ++
               "\nPlease retry.\n".toList ++ assistantInstructions }],
        trace := s.trace ++ [Event.completion s.messages,
          Event.exec ["duckdb".toList, "-c".toList, sql]] } := by
    rw [hit]
    simp
  refine ⟨hit', loop_next w remaining i s _ hit', ?_, ?_, ?_⟩
  · rw [hit']
    simp [Step.state]
  · rw [hit']
    simp [Step.state, reads]
  · rintro rfl
    rw [loop_next w 0 i s _ hit', hit']
    rfl

theorem C6_query_failure_retries_witness :
    iteration (scripted ["QUERY SELEC 1;".toList]
        [{ err := some "exit status 1".toList, stdout := [], stderr := "Parser Error".toList }] [])
      0 State.empty = Step.next
      { messages := [] ++ [{ Role := "assistant".toList, Content := "QUERY SELEC 1;".toList }] ++
          [{ Role := "user".toList,
             Content := "Parser Error".toList ++ "\nPlease retry.\n".toList ++
               assistantInstructions }],
        trace := [] ++ [Event.completion [],
          Event.exec ["duckdb".toList, "-c".toList, "SELEC 1".toList]] } :=
  (C6_query_failure_retries (scripted ["QUERY SELEC 1;".toList]
      [{ err := some "exit status 1".toList, stdout := [], stderr := "Parser Error".toList }] [])
    0 0 State.empty { Role := "assistant".toList, Content := "QUERY SELEC 1;".toList } []
    "SELEC 1".toList "exit status 1".toList rfl (by decide) rfl).1

/-- C7: human acceptance at the checkpoint. After a Query whose `duckdb` run succeeded, if
the line read from the human is, once its surrounding white space is trimmed, exactly
`exit`, or if the read reaches the end of the input, the iteration returns `nil`: the
session ends without error, no message is appended after the assistant reply and no
further completion is requested. The comparison is case-sensitive: a line that trims to
`EXIT` or to `Exit` does not end the session. -/
theorem C7_human_acceptance (w : World) (i remaining : Nat) (s : State) (msg : Message)
    (rest : List Message) (sql : Str)
    (hreply : w.CreateChatCompletion i s.messages = Except.ok (msg :: rest))
    (hcmd : replyCommand msg.Content = Command.Query sql)
    (hok : (w.Run i ["duckdb".toList, "-c".toList, sql]).err = none) :
    (((∃ line, w.ReadString i = ReadResult.line line ∧
          strings.TrimSpace line = "exit".toList) ∨
        (∃ data, w.ReadString i = ReadResult.eof data)) →
      iteration w i s = Step.exit (Exit.ret none)
        { messages := s.messages ++ [msg],
          trace := s.trace ++ [Event.completion s.messages,
            Event.exec ["duckdb".toList, "-c".toList, sql], Event.read] } ∧
      loop w (remaining + 1) i s =
        { exit := Exit.ret none,
          state := { messages := s.messages ++ [msg],
                     trace := s.trace ++ [Event.completion s.messages,
                       Event.exec ["duckdb".toList, "-c".toList, sql], Event.read] } } ∧
      completions (loop w (remaining + 1) i s).state.trace = completions s.trace + 1) ∧
    (∀ line, w.ReadString i = ReadResult.line line →
      (strings.TrimSpace line = "EXIT".toList ∨ strings.TrimSpace line = "Exit".toList) →
      ∃ s', iteration w i s = Step.next s') ∧
    strings.TrimSpace "  exit \r\n".toList = "exit".toList := by
  have hit := iteration_query w i s msg rest sql hreply hcmd
  simp only [queryArgs, hok] at hit
  refine ⟨?_, ?_, by decide⟩
  · intro hread
    have hit' : iteration w i s = Step.exit (Exit.ret none)
        { messages := s.messages ++ [msg],
          trace := s.trace ++ [Event.completion s.messages,
            Event.exec ["duckdb".toList, "-c".toList, sql], Event.read] } := by
      rcases hread with ⟨line, hline, hexit⟩ | ⟨data, hdata⟩
      · rw [hit, hline]
        simp only [hexit, if_true]
      · rw [hit, hdata]
    refine ⟨hit', loop_exit w remaining i s _ _ hit', ?_⟩
    rw [loop_exit w remaining i s _ _ hit']
    simp [completions]
  · intro line hline hcase
    rw [hit, hline]
    have hne : strings.TrimSpace line ≠ "exit".toList := by
      rcases hcase with h | h <;> rw [h] <;> decide
    simp only [hne, if_false]
    exact ⟨_, rfl⟩

theorem C7_human_acceptance_witness :
    iteration (scripted ["QUERY SELECT 1;".toList] [] [ReadResult.line " exit\n".toList])
      0 State.empty = Step.exit (Exit.ret none)
      { messages := [] ++ [{ Role := "assistant".toList, Content := "QUERY SELECT 1;".toList }],
        trace := [] ++ [Event.completion [],
          Event.exec ["duckdb".toList, "-c".toList, "SELECT 1".toList], Event.read] } :=
  ((C7_human_acceptance
    (scripted ["QUERY SELECT 1;".toList] [] [ReadResult.line " exit\n".toList])
    0 0 State.empty { Role := "assistant".toList, Content := "QUERY SELECT 1;".toList } []
    "SELECT 1".toList rfl (by decide) rfl).1
    (Or.inl ⟨" exit\n".toList, rfl, by decide⟩)).1

/-- C8, as the claim states it, fails on `cmd/root.go`: after the successful query
`SELECT 1` and the human line `rows are wrong`, the message appended is not
`"Please retry with this additional constraint: rows are wrong\n" ++ assistantInstructions`;
its content goes on with `"\nDo not apologize."`. -/
theorem C8_correction_content_counterexample :
    (scripted ["QUERY SELECT 1;".toList] [] [ReadResult.line "rows are wrong\n".toList]).Run 0
        ["duckdb".toList, "-c".toList, "SELECT 1".toList] =
      { err := none, stdout := [], stderr := [] } ∧
    strings.TrimSpace "rows are wrong\n".toList = "rows are wrong".toList ∧
    "rows are wrong".toList ≠ [] ∧ "rows are wrong".toList ≠ "exit".toList ∧
    (iteration (scripted ["QUERY SELECT 1;".toList] [] [ReadResult.line "rows are wrong\n".toList])
        0 State.empty).state.messages ≠
      [{ Role := "assistant".toList, Content := "QUERY SELECT 1;".toList },
       { Role := "user".toList,
         Content := "Please retry with this additional constraint: ".toList ++
           "rows are wrong".toList ++ "\n".toList ++ assistantInstructions }] ∧
    (iteration (scripted ["QUERY SELECT 1;".toList] [] [ReadResult.line "rows are wrong\n".toList])
        0 State.empty).state.messages =
      [{ Role := "assistant".toList, Content := "QUERY SELECT 1;".toList },
       { Role := "user".toList,
         Content := "Please retry with this additional constraint: ".toList ++
           "rows are wrong".toList ++ "\n".toList ++ assistantInstructions ++
           "\nDo not apologize.".toList }] := by
  have hit := iteration_query
    (scripted ["QUERY SELECT 1;".toList] [] [ReadResult.line "rows are wrong\n".toList])
    0 State.empty { Role := "assistant".toList, Content := "QUERY SELECT 1;".toList } []
    "SELECT 1".toList rfl (by decide)
  have hts : strings.TrimSpace "rows are wrong\n".toList = "rows are wrong".toList := by decide
  have hne : "rows are wrong".toList ≠ "exit".toList := by decide
  have hread : (scripted ["QUERY SELECT 1;".toList] [] [ReadResult.line "rows are wrong\n".toList]).ReadString 0
      = ReadResult.line "rows are wrong\n".toList := rfl
  have hrun : (scripted ["QUERY SELECT 1;".toList] [] [ReadResult.line "rows are wrong\n".toList]).Run 0
      (queryArgs "SELECT 1".toList) = { err := none, stdout := [], stderr := [] } := rfl
  rw [hrun, hread] at hit
  simp only [hts, hne, if_false] at hit
  refine ⟨rfl, hts, by decide, hne, ?_, ?_⟩
  · rw [hit]
    simp only [Step.state, State.empty, List.nil_append]
    intro h
    have hc := congrArg (fun l => (l.map (fun m => m.Content.length)).sum) h
    simp only [List.map_cons, List.map_nil, List.sum_cons, List.sum_nil, List.length_append] at hc
    have : ("\nDo not apologize.".toList).length = 18 := by decide
    omega
  · rw [hit]
    simp only [Step.state, State.empty, List.nil_append, List.append_assoc]

/-- C8, amended: human correction at the checkpoint of `cmd/root.go`. After a Query whose
`duckdb` run succeeded, for every line read from the human whose trimmed form `c` is not
`exit` (the non-empty ones in particular), the iteration appends after the assistant reply
exactly one message, of role `user` and of content
`"Please retry with this additional constraint: " ++ c ++ "\n" ++ assistantInstructions ++
"\n" ++ "Do not apologize."`, and the loop goes on with the next iteration. In `main.go`
the content is the one without the last two pieces. -/
theorem C8_human_correction (w : World) (i remaining : Nat) (s : State) (msg : Message)
    (rest : List Message) (sql line : Str)
    (hreply : w.CreateChatCompletion i s.messages = Except.ok (msg :: rest))
    (hcmd : replyCommand msg.Content = Command.Query sql)
    (hok : (w.Run i ["duckdb".toList, "-c".toList, sql]).err = none)
    (hline : w.ReadString i = ReadResult.line line)
    (hne : strings.TrimSpace line ≠ "exit".toList) :
    iteration w i s = Step.next
      { messages := (s.messages ++ [msg]) ++
          [{ Role := "user".toList,
             Content := "Please retry with this additional constraint: ".toList ++
               strings.TrimSpace line ++ "\n".toList ++ assistantInstructions ++
               "\n".toList ++ "Do not apologize.".toList }],
        trace := s.trace ++ [Event.completion s.messages,
          Event.exec ["duckdb".toList, "-c".toList, sql], Event.read] } ∧
    (iteration w i s).state.messages.length = (s.messages ++ [msg]).length + 1 ∧
    loop w (remaining + 1) i s = loop w remaining (i + 1) (iteration w i s).state ∧
    Main.iteration w i s = Step.next
      { messages := (s.messages ++ [msg]) ++
          [{ Role := "user".toList,
             Content := "Please retry with this additional constraint: ".toList ++
               strings.TrimSpace line ++ "\n".toList ++ Main.assistantInstructions }],
        trace := s.trace ++ [Event.completion s.messages,
          Event.exec ["duckdb".toList, "-c".toList, sql], Event.read] } := by
  have hit := iteration_query w i s msg rest sql hreply hcmd
  simp only [queryArgs, hok, hline, hne, if_false] at hit
  have hit' : iteration w i s = Step.next
      { messages := (s.messages ++ [msg]) ++
          [{ Role := "user".toList,
             Content := "Please retry with this additional constraint: ".toList ++
               strings.TrimSpace line ++ "\n".toList ++ assistantInstructions ++
               "\n".toList ++ "Do not apologize.".toList }],
        trace := s.trace ++ [Event.completion s.messages,
          Event.exec ["duckdb".toList, "-c".toList, sql], Event.read] } := by
    rw [hit]
    simp
  refine ⟨hit', ?_, ?_, ?_⟩
  · rw [hit']
    simp [Step.state]
  · rw [loop_next w remaining i s _ hit', hit']
    rfl
  · unfold replyCommand at hcmd
    simp only [Main.iteration, hreply, hcmd, hok, hline, hne, if_false, List.append_assoc,
      List.singleton_append, List.cons_append, List.nil_append]

theorem C8_human_correction_witness :
    iteration (scripted ["QUERY SELECT 1;".toList] [] [ReadResult.line " no nulls\n".toList])
      0 State.empty = Step.next
      { messages := ([] ++ [{ Role := "assistant".toList, Content := "QUERY SELECT 1;".toList }]) ++
          [{ Role := "user".toList,
             Content := "Please retry with this additional constraint: ".toList ++
               strings.TrimSpace " no nulls\n".toList ++ "\n".toList ++ assistantInstructions ++
               "\n".toList ++ "Do not apologize.".toList }],
        trace := [] ++ [Event.completion [],
          Event.exec ["duckdb".toList, "-c".toList, "SELECT 1".toList], Event.read] } :=
  (C8_human_correction
    (scripted ["QUERY SELECT 1;".toList] [] [ReadResult.line " no nulls\n".toList])
    0 0 State.empty { Role := "assistant".toList, Content := "QUERY SELECT 1;".toList } []
    "SELECT 1".toList " no nulls\n".toList rfl (by decide) rfl rfl (by decide)).1

/-- C9: schema lookup failures are fatal and inject no retry message. For every Schema
command, if the describe run of `duckdb` ends with an error, or if its output cannot be
decoded into `fields`, the iteration returns an error, the assistant reply is the last
message of the transcript and no further completion is requested; when the run, the
decoding and the encoding succeed, exactly one message is appended after the reply, of
role `user` and of content the encoding of the decoded `fields`, followed by `"\n"` and
the instructions. -/
theorem C9_schema_failure_is_fatal (w : World) (i remaining : Nat) (s : State) (msg : Message)
    (rest : List Message) (tableName : Str)
    (hreply : w.CreateChatCompletion i s.messages = Except.ok (msg :: rest))
    (hcmd : replyCommand msg.Content = Command.Schema tableName) :
    (∀ err, (w.Run i ["duckdb".toList, "-json".toList, "-c".toList,
          "DESCRIBE SELECT * FROM ".toList ++ tableName]).err = some err →
      loop w (remaining + 1) i s =
        { exit := Exit.ret (some ("could not run duckdb to describe table: ".toList ++ err)),
          state := { messages := s.messages ++ [msg],
                     trace := s.trace ++ [Event.completion s.messages,
                       Event.exec ["duckdb".toList, "-json".toList, "-c".toList,
                         "DESCRIBE SELECT * FROM ".toList ++ tableName]] } }) ∧
    (∀ err, (w.Run i ["duckdb".toList, "-json".toList, "-c".toList,
          "DESCRIBE SELECT * FROM ".toList ++ tableName]).err = none →
      w.Unmarshal (w.Run i ["duckdb".toList, "-json".toList, "-c".toList,
          "DESCRIBE SELECT * FROM ".toList ++ tableName]).stdout = Except.error err →
      loop w (remaining + 1) i s =
        { exit := Exit.ret (some ("could not unmarshal duckdb describe output: ".toList ++ err)),
          state := { messages := s.messages ++ [msg],
                     trace := s.trace ++ [Event.completion s.messages,
                       Event.exec ["duckdb".toList, "-json".toList, "-c".toList,
                         "DESCRIBE SELECT * FROM ".toList ++ tableName]] } }) ∧
    (((∃ err, (w.Run i ["duckdb".toList, "-json".toList, "-c".toList,
          "DESCRIBE SELECT * FROM ".toList ++ tableName]).err = some err) ∨
      (∃ err, w.Unmarshal (w.Run i ["duckdb".toList, "-json".toList, "-c".toList,
          "DESCRIBE SELECT * FROM ".toList ++ tableName]).stdout = Except.error err)) →
      (∃ e, (iteration w i s) = Step.exit (Exit.ret (some e)) (iteration w i s).state) ∧
      (iteration w i s).state.messages = s.messages ++ [msg] ∧
      (iteration w i s).state.messages.getLast? = some msg ∧
      completions (loop w (remaining + 1) i s).state.trace = completions s.trace + 1) ∧
    (∀ fields modifiedOutput, (w.Run i ["duckdb".toList, "-json".toList, "-c".toList,
          "DESCRIBE SELECT * FROM ".toList ++ tableName]).err = none →
      w.Unmarshal (w.Run i ["duckdb".toList, "-json".toList, "-c".toList,
          "DESCRIBE SELECT * FROM ".toList ++ tableName]).stdout = Except.ok fields →
      w.Marshal fields = Except.ok modifiedOutput →
      iteration w i s = Step.next
        { messages := (s.messages ++ [msg]) ++
            [{ Role := "user".toList,
               Content := modifiedOutput ++ "\n".toList ++ assistantInstructions }],
          trace := s.trace ++ [Event.completion s.messages,
            Event.exec ["duckdb".toList, "-json".toList, "-c".toList,
              "DESCRIBE SELECT * FROM ".toList ++ tableName]] }) := by
  have hit := iteration_schema w i s msg rest tableName hreply hcmd
  simp only [describeArgs] at hit
  refine ⟨?_, ?_, ?_, ?_⟩
  · intro err herr
    rw [herr] at hit
    exact loop_exit w remaining i s _ _ hit
  · intro err hnone herr
    rw [hnone] at hit
    simp only [herr] at hit
    exact loop_exit w remaining i s _ _ hit
  · intro hfail
    have key : ∃ e, iteration w i s = Step.exit (Exit.ret (some e))
        { messages := s.messages ++ [msg],
          trace := s.trace ++ [Event.completion s.messages,
            Event.exec ["duckdb".toList, "-json".toList, "-c".toList,
              "DESCRIBE SELECT * FROM ".toList ++ tableName]] } := by
      rcases hfail with ⟨err, herr⟩ | ⟨err, herr⟩
      · rw [herr] at hit
        exact ⟨_, hit⟩
      · cases hrun : (w.Run i ["duckdb".toList, "-json".toList, "-c".toList,
            "DESCRIBE SELECT * FROM ".toList ++ tableName]).err with
        | some err' =>
          rw [hrun] at hit
          exact ⟨_, hit⟩
        | none =>
          rw [hrun] at hit
          simp only [herr] at hit
          exact ⟨_, hit⟩
    obtain ⟨e, he⟩ := key
    refine ⟨⟨e, ?_⟩, ?_, ?_, ?_⟩
    · rw [he]
      rfl
    · rw [he]
      rfl
    · rw [he]
      simp [Step.state]
    · rw [loop_exit w remaining i s _ _ he]
      simp [completions]
  · intro fields out hnone hfields hout
    rw [hnone] at hit
    simp only [hfields, hout] at hit
    rw [hit]
    simp

theorem C9_schema_failure_is_fatal_witness :
    loop (scripted ["SCHEMA nope.csv".toList]
        [{ err := some "exit status 1".toList, stdout := [], stderr := [] }] []) (0 + 1) 0
        State.empty =
      { exit := Exit.ret (some ("could not run duckdb to describe table: ".toList ++
          "exit status 1".toList)),
        state := { messages := [] ++ [{ Role := "assistant".toList,
                                        Content := "SCHEMA nope.csv".toList }],
                   trace := [] ++ [Event.completion [],
                     Event.exec ["duckdb".toList, "-json".toList, "-c".toList,
                       "DESCRIBE SELECT * FROM ".toList ++ "nope.csv".toList]] } } :=
  (C9_schema_failure_is_fatal (scripted ["SCHEMA nope.csv".toList]
      [{ err := some "exit status 1".toList, stdout := [], stderr := [] }] []) 0 0
    State.empty { Role := "assistant".toList, Content := "SCHEMA nope.csv".toList } []
    "nope.csv".toList rfl (by decide)).1 "exit status 1".toList rfl

/-- C4: the turn budget. For every value `messageLimit` of `--message-limit` (16 by
default) and every world, a session requests at most `max messageLimit 0` completions,
and the loop, entered in any state, at most `messageLimit.toNat` more; whenever
`messageLimit.toNat` iterations reach the end of the body, the session ends with the
error `message limit reached` after exactly that many completions, and that outcome is
not the `nil` one; with `messageLimit ≤ 0` the loop requests no completion at all and the
session ends with that error. -/
theorem C4_turn_budget (w : World) (messageLimit : Int) :
    ((completions (RunE w messageLimit).state.trace : Int) ≤ max messageLimit 0) ∧
    (∀ s, completions (loop w messageLimit.toNat 0 s).state.trace
        ≤ completions s.trace + messageLimit.toNat) ∧
    (∀ s0 sn, setup w = Step.next s0 → stateAt w messageLimit.toNat 0 s0 = some sn →
      RunE w messageLimit = { exit := Exit.ret (some messageLimitReached), state := sn } ∧
      completions sn.trace = messageLimit.toNat) ∧
    Exit.ret (some messageLimitReached) ≠ Exit.ret none ∧
    messageLimitReached = "message limit reached".toList ∧
    (messageLimit ≤ 0 →
      (∀ s, loop w messageLimit.toNat 0 s =
        { exit := Exit.ret (some messageLimitReached), state := s }) ∧
      (∀ s0, setup w = Step.next s0 →
        RunE w messageLimit = { exit := Exit.ret (some messageLimitReached), state := s0 }) ∧
      completions (RunE w messageLimit).state.trace = 0) ∧
    defaultMessageLimit = 16 ∧
    completions (RunE w defaultMessageLimit).state.trace ≤ 16 := by
  have hrun : ∀ n : Int, completions (RunE w n).state.trace ≤ n.toNat := by
    intro n
    have hs := setup_completions w
    unfold RunE
    cases hsetup : setup w with
    | exit e s =>
      rw [hsetup] at hs
      simp only [Step.state] at hs
      simp only [hs]
      omega
    | next s =>
      rw [hsetup] at hs
      simp only [Step.state] at hs
      have := loop_completions w n.toNat 0 s
      simp only
      omega
  refine ⟨?_, fun s => loop_completions w _ 0 s, ?_, by simp, rfl, ?_, rfl, ?_⟩
  · have := hrun messageLimit
    omega
  · intro s0 sn hsetup hst
    refine ⟨?_, ?_⟩
    · simp only [RunE, hsetup]
      exact loop_of_stateAt w _ 0 s0 sn hst
    · have h1 := (stateAt_shape w _ 0 s0 sn hst).2.1
      have h2 := setup_completions w
      rw [hsetup] at h2
      simp only [Step.state] at h2
      omega
  · intro hle
    have h0 : messageLimit.toNat = 0 := by omega
    refine ⟨fun s => by rw [h0]; rfl, fun s0 hsetup => ?_, ?_⟩
    · simp only [RunE, hsetup, h0]
      rfl
    · have := hrun messageLimit
      omega
  · have := hrun defaultMessageLimit
    have h16 : defaultMessageLimit.toNat = 16 := rfl
    omega

theorem C4_turn_budget_witness :
    RunE (scripted ["QUERY SELECT 1".toList] [] []) (-3) =
      { exit := Exit.ret (some messageLimitReached),
        state := (setup (scripted ["QUERY SELECT 1".toList] [] [])).state } :=
  ((C4_turn_budget (scripted ["QUERY SELECT 1".toList] [] []) (-3)).2.2.2.2.2.1
    (by decide)).2.1 _ rfl

/-- C10: the transcript is append-only and grows in lock-step with the turns. Each
iteration, each run of the loop and each later start of an iteration has the earlier
transcript as a prefix of its own; every completion request carries the whole transcript
of that moment; the loop is entered with exactly two messages, of roles `system` and
`user`, and no completion requested so far; every iteration that reaches the end of the
body appends exactly two messages, the reply of the assistant and then one message of
role `user`; so iteration `k` (from 0) starts with exactly `2 + 2 * k` messages, the last
of which is of role `user`. -/
theorem C10_transcript_append_only (w : World) :
    (∀ i s, s.messages <+: (iteration w i s).state.messages ∧
      s.trace ++ [Event.completion s.messages] <+: (iteration w i s).state.trace) ∧
    (∀ k i s, s.messages <+: (loop w k i s).state.messages) ∧
    (∀ j k i s sj sk, j ≤ k → stateAt w j i s = some sj → stateAt w k i s = some sk →
      sj.messages <+: sk.messages) ∧
    (∀ j k i s sj, j ≤ k → stateAt w j i s = some sj →
      sj.messages <+: (loop w k i s).state.messages) ∧
    (∀ s0, setup w = Step.next s0 →
      completions s0.trace = 0 ∧
      ∃ sys usr, s0.messages = [sys, usr] ∧ sys.Role = "system".toList ∧
        usr.Role = "user".toList) ∧
    (∀ i s s', iteration w i s = Step.next s' →
      ∃ reply rest u, w.CreateChatCompletion i s.messages = Except.ok (reply :: rest) ∧
        s'.messages = s.messages ++ [reply, u] ∧ u.Role = "user".toList) ∧
    (∀ k s0 sk, setup w = Step.next s0 → stateAt w k 0 s0 = some sk →
      sk.messages.length = 2 + 2 * k ∧ sk.messages ≠ [] ∧
      ∃ u, sk.messages.getLast? = some u ∧ u.Role = "user".toList) := by
  refine ⟨fun i s => iteration_extends w i s, fun k i s => loop_extends w k i s,
    fun j k i s sj sk hjk hj hk => stateAt_extends w j k i s sj sk hjk hj hk,
    fun j k i s sj hjk hj => stateAt_loop_extends w j k i s sj hjk hj, ?_, ?_, ?_⟩
  · intro s0 hsetup
    obtain ⟨htrace, query, tables, hm⟩ := setup_next w s0 hsetup
    refine ⟨by rw [htrace]; rfl, _, _, hm, rfl, rfl⟩
  · intro i s s' hit
    obtain ⟨reply, rest, u, hr, hm, hu, -⟩ := iteration_next w i s s' hit
    exact ⟨reply, rest, u, hr, hm, hu⟩
  · intro k s0 sk hsetup hst
    obtain ⟨-, query, tables, hm⟩ := setup_next w s0 hsetup
    obtain ⟨hlen, -, hlast⟩ := stateAt_shape w k 0 s0 sk hst
    have hlen' : sk.messages.length = 2 + 2 * k := by
      rw [hlen, hm]
      simp only [List.length_cons, List.length_nil]
    refine ⟨hlen', ?_, ?_⟩
    · intro hnil
      rw [hnil] at hlen'
      simp only [List.length_nil] at hlen'
      omega
    · rcases Nat.eq_zero_or_pos k with rfl | hpos
      · simp only [stateAt, Option.some.injEq] at hst
        subst hst
        rw [hm]
        exact ⟨_, rfl, rfl⟩
      · exact hlast hpos

theorem C10_transcript_append_only_witness :
    ((setup (scripted ["SCHEMA a.csv".toList] [] [])).state.messages.length = 2 + 2 * 0 ∧
      (setup (scripted ["SCHEMA a.csv".toList] [] [])).state.messages ≠ [] ∧
      ∃ u, (setup (scripted ["SCHEMA a.csv".toList] [] [])).state.messages.getLast? = some u ∧
        u.Role = "user".toList) :=
  (C10_transcript_append_only (scripted ["SCHEMA a.csv".toList] [] [])).2.2.2.2.2.2
    0 _ _ rfl rfl

end DuckGPT
